import Mathlib

/-
  Verification of the rate-limited anonymous token issuance core
  (src/rate_limited_issuance.go) against its specification.

  The Go source is shallowly embedded over byte strings modelled as
  `List Nat` (each entry a byte value).  Pure helpers of the source
  (`padOriginName`, `unpadOriginName`, `OriginTokenRequest.Unmarshal`,
  `computeIndex`, the AAD builders, `Evaluate`, `EvaluateWithoutCheck`,
  `FinalizeToken`) are translated directly.  Cryptographic primitives
  that live in external libraries (HPKE, AES-GCM, blind RSA, the
  elliptic-curve arithmetic of crypto/elliptic and the repository's
  ecdsa package) are abstracted as parameters; SHA-256, SHA-384,
  HMAC-SHA-384 and HKDF-SHA-384 are implemented concretely because
  several claims depend on their exact byte-level behaviour.  The hash
  implementations are validated below against the FIPS 180-4 / RFC 4231
  test vectors.
-/

/-! ## Byte and word utilities -/

def mask64 : Nat := 18446744073709551615

def mask32 : Nat := 4294967295

def rotr64 (x n : Nat) : Nat := ((x >>> n) ||| (x <<< (64 - n))) &&& mask64

def rotr32 (x n : Nat) : Nat := ((x >>> n) ||| (x <<< (32 - n))) &&& mask32

/-- Big-endian encoding of `n` into exactly `k` bytes (truncating high bits). -/
def natToBytesBE : Nat → Nat → List Nat
  | 0, _ => []
  | k+1, n => natToBytesBE k (n / 256) ++ [n % 256]

/-- Big-endian interpretation of a byte string, as `math/big.Int.SetBytes`. -/
def bytesToNat (l : List Nat) : Nat := l.foldl (fun a b => 256 * a + b) 0

def chunksGo (n : Nat) : Nat → List Nat → List (List Nat)
  | 0, _ => []
  | _, [] => []
  | fuel+1, l => l.take n :: chunksGo n fuel (l.drop n)

/-- Split a list into consecutive chunks of `n` elements (last may be short). -/
def chunks (n : Nat) (l : List Nat) : List (List Nat) :=
  chunksGo n l.length l

def bytesToWords (bytesPerWord : Nat) (l : List Nat) : List Nat :=
  (chunks bytesPerWord l).map (List.foldl (fun a b => a * 256 + b) 0)

/-! ## SHA-384 and SHA-256 (FIPS 180-4)

The round constants are the high 64 (resp. 32) bits of the fractional
parts of the cube roots of the first 80 (resp. 64) primes, and the
initial values the corresponding square-root fractions, exactly as the
standard defines them. -/

def K512 : List Nat :=
  [4794697086780616226, 8158064640168781261, 13096744586834688815, 16840607885511220156,
   4131703408338449720, 6480981068601479193, 10538285296894168987, 12329834152419229976,
   15566598209576043074, 1334009975649890238, 2608012711638119052, 6128411473006802146,
   8268148722764581231, 9286055187155687089, 11230858885718282805, 13951009754708518548,
   16472876342353939154, 17275323862435702243, 1135362057144423861, 2597628984639134821,
   3308224258029322869, 5365058923640841347, 6679025012923562964, 8573033837759648693,
   10970295158949994411, 12119686244451234320, 12683024718118986047, 13788192230050041572,
   14330467153632333762, 15395433587784984357, 489312712824947311, 1452737877330783856,
   2861767655752347644, 3322285676063803686, 5560940570517711597, 5996557281743188959,
   7280758554555802590, 8532644243296465576, 9350256976987008742, 10552545826968843579,
   11727347734174303076, 12113106623233404929, 14000437183269869457, 14369950271660146224,
   15101387698204529176, 15463397548674623760, 17586052441742319658, 1182934255886127544,
   1847814050463011016, 2177327727835720531, 2830643537854262169, 3796741975233480872,
   4115178125766777443, 5681478168544905931, 6601373596472566643, 7507060721942968483,
   8399075790359081724, 8693463985226723168, 9568029438360202098, 10144078919501101548,
   10430055236837252648, 11840083180663258601, 13761210420658862357, 14299343276471374635,
   14566680578165727644, 15097957966210449927, 16922976911328602910, 17689382322260857208,
   500013540394364858, 748580250866718886, 1242879168328830382, 1977374033974150939,
   2944078676154940804, 3659926193048069267, 4368137639120453308, 4836135668995329356,
   5532061633213252278, 6448918945643986474, 6902733635092675308, 7801388544844847127]

def K256 : List Nat :=
  [1116352408, 1899447441, 3049323471, 3921009573, 961987163, 1508970993, 2453635748, 2870763221,
   3624381080, 310598401, 607225278, 1426881987, 1925078388, 2162078206, 2614888103, 3248222580,
   3835390401, 4022224774, 264347078, 604807628, 770255983, 1249150122, 1555081692, 1996064986,
   2554220882, 2821834349, 2952996808, 3210313671, 3336571891, 3584528711, 113926993, 338241895,
   666307205, 773529912, 1294757372, 1396182291, 1695183700, 1986661051, 2177026350, 2456956037,
   2730485921, 2820302411, 3259730800, 3345764771, 3516065817, 3600352804, 4094571909, 275423344,
   430227734, 506948616, 659060556, 883997877, 958139571, 1322822218, 1537002063, 1747873779,
   1955562222, 2024104815, 2227730452, 2361852424, 2428436474, 2756734187, 3204031479, 3329325298]

structure H8 where
  a : Nat
  b : Nat
  c : Nat
  d : Nat
  e : Nat
  f : Nat
  g : Nat
  h : Nat
deriving DecidableEq

def iv384 : H8 :=
  ⟨14680500436340154072, 7105036623409894663, 10473403895298186519, 1526699215303891257,
   7436329637833083697, 10282925794625328401, 15784041429090275239, 5167115440072839076⟩

def iv256 : H8 :=
  ⟨1779033703, 3144134277, 1013904242, 2773480762, 1359893119, 2600822924, 528734635, 1541459225⟩

def sha512Round (st : H8) (k : Nat) (w : Nat) : H8 :=
  let s1 := rotr64 st.e 14 ^^^ rotr64 st.e 18 ^^^ rotr64 st.e 41
  let ch := (st.e &&& st.f) ^^^ ((mask64 ^^^ st.e) &&& st.g)
  let t1 := (st.h + s1 + ch + k + w) &&& mask64
  let s0 := rotr64 st.a 28 ^^^ rotr64 st.a 34 ^^^ rotr64 st.a 39
  let mj := (st.a &&& st.b) ^^^ (st.a &&& st.c) ^^^ (st.b &&& st.c)
  let t2 := (s0 + mj) &&& mask64
  ⟨(t1 + t2) &&& mask64, st.a, st.b, st.c, (st.d + t1) &&& mask64, st.e, st.f, st.g⟩

def sha512ExtendGo (rev : List Nat) : Nat → List Nat
  | 0 => rev.reverse
  | f+1 =>
    let wt := ((rotr64 (rev.getD 1 0) 19 ^^^ rotr64 (rev.getD 1 0) 61 ^^^ (rev.getD 1 0 >>> 6))
               + rev.getD 6 0
               + (rotr64 (rev.getD 14 0) 1 ^^^ rotr64 (rev.getD 14 0) 8 ^^^ (rev.getD 14 0 >>> 7))
               + rev.getD 15 0) &&& mask64
    sha512ExtendGo (wt :: rev) f

def sha512Compress (st : H8) (block : List Nat) : H8 :=
  let w := sha512ExtendGo block.reverse 64
  let fin := (K512.zip w).foldl (fun s kw => sha512Round s kw.1 kw.2) st
  ⟨(st.a + fin.a) &&& mask64, (st.b + fin.b) &&& mask64, (st.c + fin.c) &&& mask64,
   (st.d + fin.d) &&& mask64, (st.e + fin.e) &&& mask64, (st.f + fin.f) &&& mask64,
   (st.g + fin.g) &&& mask64, (st.h + fin.h) &&& mask64⟩

def sha512Pad (msg : List Nat) : List Nat :=
  msg ++ [128] ++ List.replicate ((128 + 111 - (msg.length % 128)) % 128) 0
      ++ natToBytesBE 16 (8 * msg.length)

/-- SHA-384 of a byte string (FIPS 180-4). -/
def sha384 (msg : List Nat) : List Nat :=
  let st := (chunks 16 (bytesToWords 8 (sha512Pad msg))).foldl sha512Compress iv384
  natToBytesBE 8 st.a ++ natToBytesBE 8 st.b ++ natToBytesBE 8 st.c ++
    natToBytesBE 8 st.d ++ natToBytesBE 8 st.e ++ natToBytesBE 8 st.f

def sha256Round (st : H8) (k : Nat) (w : Nat) : H8 :=
  let s1 := rotr32 st.e 6 ^^^ rotr32 st.e 11 ^^^ rotr32 st.e 25
  let ch := (st.e &&& st.f) ^^^ ((mask32 ^^^ st.e) &&& st.g)
  let t1 := (st.h + s1 + ch + k + w) &&& mask32
  let s0 := rotr32 st.a 2 ^^^ rotr32 st.a 13 ^^^ rotr32 st.a 22
  let mj := (st.a &&& st.b) ^^^ (st.a &&& st.c) ^^^ (st.b &&& st.c)
  let t2 := (s0 + mj) &&& mask32
  ⟨(t1 + t2) &&& mask32, st.a, st.b, st.c, (st.d + t1) &&& mask32, st.e, st.f, st.g⟩

def sha256ExtendGo (rev : List Nat) : Nat → List Nat
  | 0 => rev.reverse
  | f+1 =>
    let wt := ((rotr32 (rev.getD 1 0) 17 ^^^ rotr32 (rev.getD 1 0) 19 ^^^ (rev.getD 1 0 >>> 10))
               + rev.getD 6 0
               + (rotr32 (rev.getD 14 0) 7 ^^^ rotr32 (rev.getD 14 0) 18 ^^^ (rev.getD 14 0 >>> 3))
               + rev.getD 15 0) &&& mask32
    sha256ExtendGo (wt :: rev) f

def sha256Compress (st : H8) (block : List Nat) : H8 :=
  let w := sha256ExtendGo block.reverse 48
  let fin := (K256.zip w).foldl (fun s kw => sha256Round s kw.1 kw.2) st
  ⟨(st.a + fin.a) &&& mask32, (st.b + fin.b) &&& mask32, (st.c + fin.c) &&& mask32,
   (st.d + fin.d) &&& mask32, (st.e + fin.e) &&& mask32, (st.f + fin.f) &&& mask32,
   (st.g + fin.g) &&& mask32, (st.h + fin.h) &&& mask32⟩

def sha256Pad (msg : List Nat) : List Nat :=
  msg ++ [128] ++ List.replicate ((64 + 55 - (msg.length % 64)) % 64) 0
      ++ natToBytesBE 8 (8 * msg.length)

/-- SHA-256 of a byte string (FIPS 180-4). -/
def sha256 (msg : List Nat) : List Nat :=
  let st := (chunks 16 (bytesToWords 4 (sha256Pad msg))).foldl sha256Compress iv256
  natToBytesBE 4 st.a ++ natToBytesBE 4 st.b ++ natToBytesBE 4 st.c ++ natToBytesBE 4 st.d ++
    natToBytesBE 4 st.e ++ natToBytesBE 4 st.f ++ natToBytesBE 4 st.g ++ natToBytesBE 4 st.h

/-! ## HMAC-SHA-384 and HKDF-SHA-384 (RFC 2104 / RFC 5869)

These mirror Go's `crypto/hmac` and `golang.org/x/crypto/hkdf`:
`hkdf.New(hash, secret, salt, info)` computes `prk = HMAC(salt, secret)`
(with an all-zero salt of hash size when the salt is nil) and then
serves the byte stream `T(1) ‖ T(2) ‖ …` with
`T(i) = HMAC(prk, T(i-1) ‖ info ‖ byte(i))`. -/

def hmacSHA384 (key msg : List Nat) : List Nat :=
  let k0 := if 128 < key.length then sha384 key else key
  let kPad := k0 ++ List.replicate (128 - k0.length) 0
  sha384 ((kPad.map (fun b => b ^^^ 92)) ++ sha384 ((kPad.map (fun b => b ^^^ 54)) ++ msg))

def hkdfExtractSHA384 (salt ikm : List Nat) : List Nat :=
  hmacSHA384 (if salt = [] then List.replicate 48 0 else salt) ikm

def hkdfT384 (prk info : List Nat) : Nat → List Nat
  | 0 => []
  | i+1 => hmacSHA384 prk (hkdfT384 prk info i ++ info ++ [(i+1) % 256])

def hkdfExpandSHA384 (prk info : List Nat) (n : Nat) : List Nat :=
  (((List.range ((n + 47) / 48)).map (fun i => hkdfT384 prk info (i + 1))).flatten).take n

/-- A single HKDF-SHA-384 extract-then-expand producing `n` bytes from
the given `salt`, `ikm` and `info`. -/
def hkdfOneShotSHA384 (salt ikm info : List Nat) (n : Nat) : List Nat :=
  hkdfExpandSHA384 (hkdfExtractSHA384 salt ikm) info n

/-! ## Origin name padding (src/rate_limited_issuance.go:120-139) -/

/-- Embeds `padOriginName`.  The Go source computes
`N := 31 - ((len(originName) - 1) % 32)` over machine integers, where
Go's `%` is the truncated remainder (so for the empty name
`(-1) % 32 = -1` and `N = 32`), and appends `N` zero bytes. -/
def padOriginName (originName : List Nat) : List Nat :=
  let N : Int := 31 - (((originName.length : Int) - 1).tmod 32)
  originName ++ List.replicate N.toNat 0

/-- Embeds `unpadOriginName`: scan from the end, strip every trailing
zero byte; an all-zero input yields the empty name. -/
def unpadOriginName (paddedOriginName : List Nat) : List Nat :=
  (paddedOriginName.reverse.dropWhile (fun b => b == 0)).reverse

/-! ## OriginTokenRequest wire codec (src/rate_limited_issuance.go:28-67) -/

structure OriginTokenRequest where
  blindedMsg : List Nat
  requestKey : List Nat
  paddedOrigin : List Nat
deriving DecidableEq

def emptyOriginTokenRequest : OriginTokenRequest := ⟨[], [], []⟩

/-- Embeds `OriginTokenRequest.Marshal`:
`blindedMsg ‖ requestKey ‖ u16_be(len(paddedOrigin)) ‖ paddedOrigin`. -/
def otrMarshal (r : OriginTokenRequest) : List Nat :=
  r.blindedMsg ++ r.requestKey ++
    [r.paddedOrigin.length / 256 % 256, r.paddedOrigin.length % 256] ++ r.paddedOrigin

/-- Embeds `OriginTokenRequest.Unmarshal` over cryptobyte semantics:
`ReadBytes 256`, `ReadBytes 49`, then `ReadUint16LengthPrefixed` (a
2-byte big-endian length followed by that many bytes); each read fails
on a short input.  As in the source, nothing checks that the input is
fully consumed afterwards. -/
def otrUnmarshal (data : List Nat) : Option OriginTokenRequest :=
  if data.length < 256 then none
  else
    let s1 := data.drop 256
    if s1.length < 49 then none
    else
      let s2 := s1.drop 49
      if s2.length < 2 then none
      else
        let n := 256 * s2.getD 0 0 + s2.getD 1 0
        let s3 := s2.drop 2
        if s3.length < n then none
        else some ⟨data.take 256, s1.take 49, s3.take n⟩

/-! ## Attester index computation (src/rate_limited_issuance.go:69-99) -/

/-- The HKDF info label `"anon_issuer_origin_id"` as bytes. -/
def anonOriginIdInfo : List Nat :=
  [97, 110, 111, 110, 95, 105, 115, 115, 117, 101, 114, 95, 111, 114, 105, 103, 105, 110, 95,
   105, 100]

/-- Embeds `computeIndex`.  The source calls
`hkdf.New(sha512.New384, indexKey, clientKey, []byte("anon_issuer_origin_id"))`
whose parameter order is `(hash, secret, salt, info)` — the IKM is
`indexKey` and the salt is `clientKey` — and then reads 48 bytes from
the resulting stream. -/
def computeIndex (clientKey indexKey : List Nat) : List Nat :=
  hkdfExpandSHA384 (hkdfExtractSHA384 clientKey indexKey) anonOriginIdInfo 48

/-- The index computation exactly as the specification sentence words
it: HKDF-SHA-384 with `salt = indexKeyEnc` and `ikm = clientKey`.  Kept
separate from `computeIndex` so the two can be compared. -/
def computeIndexSpecClaim (clientKey indexKeyEnc : List Nat) : List Nat :=
  hkdfExpandSHA384 (hkdfExtractSHA384 indexKeyEnc clientKey) anonOriginIdInfo 48

/-! ## Name keys and the HPKE AAD (src/rate_limited_issuance.go:142-174, 409-421) -/

/-- Modelled from the spec: the 16-bit token type constant
`RateLimitedTokenType` is defined by the surrounding token framework
(outside src/); the core treats it as an opaque constant, and no claim
depends on its concrete value. -/
def RateLimitedTokenType : Nat := 3

def u16be (n : Nat) : List Nat := [n / 256 % 256, n % 256]

/-- The issuer's HPKE configuration (`PublicNameKey`): an 8-bit `id`,
the HPKE suite triple, and the public KEM key.  The suite's sizes are
carried as fields; for the fixed suite DHKEM(X25519)/HKDF-SHA256/
AES-128-GCM they are 32, 16 and 12. -/
structure PublicNameKey where
  id : Nat
  kemId : Nat
  kdfId : Nat
  aeadId : Nat
  kemPublicKeySize : Nat
  aeadKeySize : Nat
  aeadNonceSize : Nat
  publicKeyEnc : List Nat
deriving DecidableEq

/-- `PrivateNameKey`: the public configuration plus the private KEM key.
The private key itself only feeds the abstract HPKE open primitive, so
only the public part is carried here. -/
structure PrivateNameKey where
  pub : PublicNameKey
deriving DecidableEq

/-- Modelled from the spec: `PublicNameKey.Marshal` lives outside src/;
per the spec it is a deterministic canonical encoding of the `id`, the
suite identifiers and the public KEM key, whose SHA-256 digest is the
32-byte `nameKeyID`. -/
def marshalPublicNameKey (k : PublicNameKey) : List Nat :=
  [k.id % 256] ++ u16be k.kemId ++ u16be k.kdfId ++ u16be k.aeadId ++ k.publicKeyEnc

/-- The HPKE AAD as built on the client side in
`encryptOriginTokenRequest` (lines 151-158):
`u8(id) ‖ u16(kem) ‖ u16(kdf) ‖ u16(aead) ‖ u16(tokenType) ‖
u8(tokenKeyID) ‖ SHA-256(nameKey.Marshal())`. -/
def clientAad (nameKey : PublicNameKey) (tokenKeyID : Nat) : List Nat :=
  [nameKey.id % 256] ++ u16be nameKey.kemId ++ u16be nameKey.kdfId ++ u16be nameKey.aeadId ++
    u16be RateLimitedTokenType ++ [tokenKeyID % 256] ++ sha256 (marshalPublicNameKey nameKey)

/-- The HPKE AAD as rebuilt on the issuer side in
`decryptOriginTokenRequest` (lines 413-421), from the private name key's
public half. -/
def issuerAad (nameKey : PrivateNameKey) (tokenKeyID : Nat) : List Nat :=
  [nameKey.pub.id % 256] ++ u16be nameKey.pub.kemId ++ u16be nameKey.pub.kdfId ++
    u16be nameKey.pub.aeadId ++ u16be RateLimitedTokenType ++ [tokenKeyID % 256] ++
    sha256 (marshalPublicNameKey nameKey.pub)

/-! ## Issuer evaluation (src/rate_limited_issuance.go:409-595)

The external cryptographic primitives consumed by the issuer paths are
abstracted as a record of pure functions: HPKE `SetupBaseR`+`Open`
(collapsed into one fallible open, as both Go error returns propagate
identically), the context's exporter, `elliptic.UnmarshalCompressed` /
`MarshalCompressed`, the repository ecdsa package's `Verify`,
`BlindPublicKey`, blind-RSA `BlindSign`, the response KDF and the
response AEAD seal.  Points are abstract pairs.  The issuer's RSA key
and the HPKE private key are closed over by the respective
primitives. -/

structure IssuerPrims where
  hpkeOpen : List Nat → List Nat → List Nat → Option (List Nat)
  hpkeExport : List Nat → List Nat
  unmarshalCompressed : List Nat → Option (Nat × Nat)
  marshalCompressed : Nat × Nat → List Nat
  ecdsaVerify : Nat × Nat → List Nat → Nat → Nat → Bool
  blindPublicKey : Nat × Nat → Nat → Option (Nat × Nat)
  blindSign : List Nat → Option (List Nat)
  kdfExtract : List Nat → List Nat → List Nat
  kdfExpand : List Nat → List Nat → Nat → List Nat
  aeadSeal : List Nat → List Nat → List Nat → List Nat

/-- Issuer state: the name key and the in-memory origin → index-key
mapping (`originIndexKeys`), an association list keyed by origin-name
bytes with abstract scalars as values. -/
structure RateLimitedIssuer where
  nameKey : PrivateNameKey
  originIndexKeys : List (List Nat × Nat)

structure RateLimitedTokenRequest where
  tokenKeyID : Nat
  nameKeyID : List Nat
  encryptedTokenRequest : List Nat
  signature : List Nat
deriving DecidableEq

inductive EvalError where
  | hpkeOpenFailed : EvalError
  | unknownOrigin : List Nat → EvalError
  | invalidSignature : EvalError
  | blindKeyFailed : EvalError
  | blindSignFailed : EvalError
deriving DecidableEq

/-- The triple returned by `decryptOriginTokenRequest`. -/
structure DecryptResult where
  tokenRequest : OriginTokenRequest
  secret : List Nat
  err : Option EvalError
deriving DecidableEq

/-- The label `"key"`. -/
def labelResponseKey : List Nat := [107, 101, 121]

/-- The label `"nonce"`. -/
def labelResponseNonce : List Nat := [110, 111, 110, 99, 101]

/-- Embeds `decryptOriginTokenRequest` (lines 409-444): build the AAD,
split the encapsulation from the ciphertext at the KEM public key size,
HPKE-open, decode the plaintext, export the response secret.  On an
`Unmarshal` failure the source executes `return OriginTokenRequest{},
nil, err` where `err` still holds the nil returned by the successful
`context.Open` — so the error component is `none` on that path. -/
def decryptOriginTokenRequest (P : IssuerPrims) (nameKey : PrivateNameKey) (tokenKeyID : Nat)
    (encryptedTokenRequest : List Nat) : DecryptResult :=
  match P.hpkeOpen (encryptedTokenRequest.take nameKey.pub.kemPublicKeySize)
      (issuerAad nameKey tokenKeyID)
      (encryptedTokenRequest.drop nameKey.pub.kemPublicKeySize) with
  | none => ⟨emptyOriginTokenRequest, [], some .hpkeOpenFailed⟩
  | some pt =>
    match otrUnmarshal pt with
    | none => ⟨emptyOriginTokenRequest, [], none⟩
    | some tokenRequest =>
      ⟨tokenRequest, P.hpkeExport (encryptedTokenRequest.take nameKey.pub.kemPublicKeySize), none⟩

/-- `ecdsa.Verify` applied to the result of `elliptic.UnmarshalCompressed`.
Modelled from the spec for the repository's ecdsa package (not under
src/): per spec §4.8 step 3 a `requestKey` that is off-curve, malformed
or the point at infinity (decoded to `none`) is rejected, so
verification against it fails. -/
def ecdsaVerifyDecoded (P : IssuerPrims) :
    Option (Nat × Nat) → List Nat → Nat → Nat → Bool
  | none, _, _, _ => false
  | some pk, digest, r, s => P.ecdsaVerify pk digest r s

/-- `ecdsa.BlindPublicKey` applied to the result of
`elliptic.UnmarshalCompressed`.  Modelled from the spec for the
repository's ecdsa package (not under src/): blinding an invalid
decoded point fails. -/
def blindDecoded (P : IssuerPrims) : Option (Nat × Nat) → Nat → Option (Nat × Nat)
  | none, _ => none
  | some pk, k => P.blindPublicKey pk k

/-- The signed outer message rebuilt by `Evaluate` (lines 471-476):
`u16(tokenType) ‖ u8(tokenKeyID) ‖ nameKeyID ‖ encryptedTokenRequest`. -/
def outerMessage (req : RateLimitedTokenRequest) : List Nat :=
  u16be RateLimitedTokenType ++ [req.tokenKeyID % 256] ++ req.nameKeyID ++
    req.encryptedTokenRequest

/-- Embeds `RateLimitedIssuer.Evaluate` (lines 446-532).  The fresh
`responseNonce` the source samples (of length
`max(aeadKeySize, aeadNonceSize)`) is passed in explicitly, making the
function deterministic in its randomness.  The result on success is
`(responseNonce ‖ AEAD-ciphertext, blindedRequestKeyEnc)`. -/
def evaluate (P : IssuerPrims) (iss : RateLimitedIssuer) (req : RateLimitedTokenRequest)
    (responseNonce : List Nat) : Except EvalError (List Nat × List Nat) :=
  match decryptOriginTokenRequest P iss.nameKey req.tokenKeyID req.encryptedTokenRequest with
  | ⟨_, _, some e⟩ => .error e
  | ⟨otr, secret, none⟩ =>
    match iss.originIndexKeys.lookup (unpadOriginName otr.paddedOrigin) with
    | none => .error (.unknownOrigin (unpadOriginName otr.paddedOrigin))
    | some originIndexKey =>
      if ecdsaVerifyDecoded P (P.unmarshalCompressed otr.requestKey) (sha384 (outerMessage req))
          (bytesToNat (req.signature.take 48)) (bytesToNat (req.signature.drop 48)) then
        match blindDecoded P (P.unmarshalCompressed otr.requestKey) originIndexKey with
        | none => .error .blindKeyFailed
        | some blindedRequestKey =>
          match P.blindSign otr.blindedMsg with
          | none => .error .blindSignFailed
          | some blindSignature =>
            let prk := P.kdfExtract
              (req.encryptedTokenRequest.take iss.nameKey.pub.kemPublicKeySize ++ responseNonce)
              secret
            .ok (responseNonce ++
                  P.aeadSeal (P.kdfExpand prk labelResponseKey iss.nameKey.pub.aeadKeySize)
                    (P.kdfExpand prk labelResponseNonce iss.nameKey.pub.aeadNonceSize)
                    blindSignature,
                 P.marshalCompressed blindedRequestKey)
      else .error .invalidSignature

/-- Embeds `RateLimitedIssuer.EvaluateWithoutCheck` (lines 534-595):
identical to `evaluate` except that the ECDSA decoding check and
signature verification are skipped — and, as in the source (line 592),
the returned encrypted token response is the bare AEAD ciphertext with
no `responseNonce` prefix, although the nonce still salts the KDF. -/
def evaluateWithoutCheck (P : IssuerPrims) (iss : RateLimitedIssuer)
    (req : RateLimitedTokenRequest) (responseNonce : List Nat) :
    Except EvalError (List Nat × List Nat) :=
  match decryptOriginTokenRequest P iss.nameKey req.tokenKeyID req.encryptedTokenRequest with
  | ⟨_, _, some e⟩ => .error e
  | ⟨otr, secret, none⟩ =>
    match iss.originIndexKeys.lookup (unpadOriginName otr.paddedOrigin) with
    | none => .error (.unknownOrigin (unpadOriginName otr.paddedOrigin))
    | some originIndexKey =>
      match blindDecoded P (P.unmarshalCompressed otr.requestKey) originIndexKey with
      | none => .error .blindKeyFailed
      | some blindedRequestKey =>
        match P.blindSign otr.blindedMsg with
        | none => .error .blindSignFailed
        | some blindSignature =>
          let prk := P.kdfExtract
            (req.encryptedTokenRequest.take iss.nameKey.pub.kemPublicKeySize ++ responseNonce)
            secret
          .ok (P.aeadSeal (P.kdfExpand prk labelResponseKey iss.nameKey.pub.aeadKeySize)
                 (P.kdfExpand prk labelResponseNonce iss.nameKey.pub.aeadNonceSize)
                 blindSignature,
               P.marshalCompressed blindedRequestKey)

/-! ## Client finalization (src/rate_limited_issuance.go:195-250) -/

structure ClientPrims where
  kdfExtract : List Nat → List Nat → List Nat
  kdfExpand : List Nat → List Nat → Nat → List Nat
  aeadOpen : List Nat → List Nat → List Nat → Option (List Nat)
  rsaFinalize : List Nat → Option (List Nat)
  unmarshalToken : List Nat → Option (List Nat)
  pssVerify : List Nat → Bool

/-- The client request state fields `FinalizeToken` reads.  For the
fixed AES-128-GCM suite `aeadKeySize = 16` and `aeadNonceSize = 12`. -/
structure RequestStateModel where
  tokenInput : List Nat
  encapSecret : List Nat
  encapEnc : List Nat
  aeadKeySize : Nat
  aeadNonceSize : Nat

inductive FinalizeError where
  | aeadOpenFailed : FinalizeError
  | rsaFinalizeFailed : FinalizeError
  | tokenDecodeFailed : FinalizeError
  | pssVerifyFailed : FinalizeError
deriving DecidableEq

/-- Embeds `RateLimitedTokenRequestState.FinalizeToken`.  The two Go
slice expressions `encryptedtokenResponse[:responseNonceLen]` and
`[responseNonceLen:]` panic when the response is shorter than
`responseNonceLen = max(aeadKeySize, aeadNonceSize)`; the panic is
modelled as `none`, every non-panicking outcome as `some` of either an
error or the finalized token (tokens themselves stay abstract byte
strings; the final RSA-PSS sanity check is the abstract `pssVerify`). -/
def finalizeToken (P : ClientPrims) (st : RequestStateModel)
    (encryptedTokenResponse : List Nat) : Option (Except FinalizeError (List Nat)) :=
  let responseNonceLen := max st.aeadKeySize st.aeadNonceSize
  if encryptedTokenResponse.length < responseNonceLen then none
  else
    let prk := P.kdfExtract (st.encapEnc ++ encryptedTokenResponse.take responseNonceLen)
      st.encapSecret
    match P.aeadOpen (P.kdfExpand prk labelResponseKey st.aeadKeySize)
        (P.kdfExpand prk labelResponseNonce st.aeadNonceSize)
        (encryptedTokenResponse.drop responseNonceLen) with
    | none => some (.error .aeadOpenFailed)
    | some blindSignature =>
      match P.rsaFinalize blindSignature with
      | none => some (.error .rsaFinalizeFailed)
      | some signature =>
        match P.unmarshalToken (st.tokenInput ++ signature) with
        | none => some (.error .tokenDecodeFailed)
        | some token =>
          if P.pssVerify token then some (.ok token) else some (.error .pssVerifyFailed)

/-! ## Attester FinalizeIndex (src/rate_limited_issuance.go:79-99)

The elliptic-curve unblinding steps come from the repository's ecdsa
package (not under src/) and stay abstract; the final step is the
concrete `computeIndex` applied to the client key and the compressed
encoding of the unblinded index key. -/

structure AttesterPrims where
  unmarshalCompressed : List Nat → Nat × Nat
  createKey : List Nat → Option Nat
  unblindPublicKey : Nat × Nat → Nat → Option (Nat × Nat)
  marshalCompressed : Nat × Nat → List Nat

def finalizeIndex (A : AttesterPrims) (clientKey blindEnc blindedRequestKeyEnc : List Nat) :
    Option (List Nat) :=
  match A.createKey blindEnc with
  | none => none
  | some blindKey =>
    match A.unblindPublicKey (A.unmarshalCompressed blindedRequestKeyEnc) blindKey with
    | none => none
    | some indexKey => some (computeIndex clientKey (A.marshalCompressed indexKey))

/-! ## Concrete instances used to exercise the definitions

These provide explicit inputs on which the embedded functions are
evaluated: an arbitrary well-formed inner plaintext (256-byte blinded
message, 49-byte request key, 16-bit length 32, 32 zero padding bytes,
i.e. the padded empty origin), a name key with the fixed suite sizes,
and simple instantiations of the abstract primitives. -/

def otrPlainExample : List Nat :=
  List.replicate 256 7 ++ List.replicate 49 8 ++ [0, 32] ++ List.replicate 32 0

def otrExample : OriginTokenRequest :=
  ⟨List.replicate 256 7, List.replicate 49 8, List.replicate 32 0⟩

def nameKeyExample : PrivateNameKey :=
  ⟨⟨0, 32, 1, 1, 32, 16, 12, List.replicate 32 1⟩⟩

def primsOk : IssuerPrims where
  hpkeOpen := fun _ _ _ => some otrPlainExample
  hpkeExport := fun _ => []
  unmarshalCompressed := fun _ => some (1, 2)
  marshalCompressed := fun p => [p.1 % 256, p.2 % 256]
  ecdsaVerify := fun _ _ _ _ => true
  blindPublicKey := fun p k => some (p.1 + k, p.2)
  blindSign := fun _ => some [9, 9]
  kdfExtract := fun _ _ => []
  kdfExpand := fun _ _ _ => []
  aeadSeal := fun _ _ pt => pt

/-- Primitives whose point decoding always fails (an off-curve or
malformed `requestKey`). -/
def primsBadPoint : IssuerPrims :=
  { primsOk with unmarshalCompressed := fun _ => none }

/-- Primitives whose HPKE open succeeds but yields a plaintext that is
not a valid `OriginTokenRequest` encoding. -/
def primsBadPlain : IssuerPrims :=
  { primsOk with hpkeOpen := fun _ _ _ => some [1, 2, 3] }

/-- An issuer with the empty origin name registered. -/
def issuerExample : RateLimitedIssuer := ⟨nameKeyExample, [([], 5)]⟩

/-- An issuer with no origins registered. -/
def issuerNoOrigins : RateLimitedIssuer := ⟨nameKeyExample, []⟩

def reqExample : RateLimitedTokenRequest :=
  ⟨1, List.replicate 32 0, List.replicate 64 3, List.replicate 96 2⟩

def nonceExample : List Nat := List.replicate 16 4

def clientPrimsExample : ClientPrims where
  kdfExtract := fun _ _ => []
  kdfExpand := fun _ _ _ => []
  aeadOpen := fun _ _ _ => none
  rsaFinalize := fun _ => none
  unmarshalToken := fun _ => none
  pssVerify := fun _ => false

/-- Client request state with the fixed AES-128-GCM sizes. -/
def stateExample : RequestStateModel := ⟨[], [], [], 16, 12⟩

/-- A 308-byte `OriginTokenRequest` encoding carrying one trailing byte
after the length-prefixed field (the exact encoding would be 307 bytes,
since its 16-bit length field holds 0). -/
def trailingExample : List Nat := List.replicate 305 0 ++ [0, 0, 9]

/-! ## Validation of the hash implementations (FIPS 180-4 / RFC 4231 vectors) -/

set_option maxRecDepth 100000 in
theorem sha384_vector_abc :
    sha384 [97, 98, 99] =
      [0xcb, 0x00, 0x75, 0x3f, 0x45, 0xa3, 0x5e, 0x8b, 0xb5, 0xa0, 0x3d, 0x69, 0x9a, 0xc6,
       0x50, 0x07, 0x27, 0x2c, 0x32, 0xab, 0x0e, 0xde, 0xd1, 0x63, 0x1a, 0x8b, 0x60, 0x5a,
       0x43, 0xff, 0x5b, 0xed, 0x80, 0x86, 0x07, 0x2b, 0xa1, 0xe7, 0xcc, 0x23, 0x58, 0xba,
       0xec, 0xa1, 0x34, 0xc8, 0x25, 0xa7] := by
  decide

set_option maxRecDepth 100000 in
theorem sha256_vector_abc :
    sha256 [97, 98, 99] =
      [0xba, 0x78, 0x16, 0xbf, 0x8f, 0x01, 0xcf, 0xea, 0x41, 0x41, 0x40, 0xde, 0x5d, 0xae,
       0x22, 0x23, 0xb0, 0x03, 0x61, 0xa3, 0x96, 0x17, 0x7a, 0x9c, 0xb4, 0x10, 0xff, 0x61,
       0xf2, 0x00, 0x15, 0xad] := by
  decide

set_option maxRecDepth 1000000 in
theorem hmacSHA384_vector_rfc4231 :
    hmacSHA384 (List.replicate 20 0x0b) [72, 105, 32, 84, 104, 101, 114, 101] =
      [0xaf, 0xd0, 0x39, 0x44, 0xd8, 0x48, 0x95, 0x62, 0x6b, 0x08, 0x25, 0xf4, 0xab, 0x46,
       0x90, 0x7f, 0x15, 0xf9, 0xda, 0xdb, 0xe4, 0x10, 0x1e, 0xc6, 0x82, 0xaa, 0x03, 0x4c,
       0x7c, 0xeb, 0xc5, 0x9c, 0xfa, 0xea, 0x9e, 0xa9, 0x07, 0x6e, 0xde, 0x7f, 0x4a, 0xf1,
       0x52, 0xe8, 0xb2, 0xfa, 0x9c, 0xb6] := by
  decide

/-! ## Helper lemmas -/

theorem natToBytesBE_length (k : Nat) : ∀ n, (natToBytesBE k n).length = k := by
  induction k with
  | zero => intro n; rfl
  | succ m ih => intro n; simp [natToBytesBE, ih]

theorem sha384_length (msg : List Nat) : (sha384 msg).length = 48 := by
  simp [sha384, natToBytesBE_length]

theorem hmacSHA384_length (key msg : List Nat) : (hmacSHA384 key msg).length = 48 := by
  simp [hmacSHA384, sha384_length]

theorem computeIndex_length (ck ike : List Nat) : (computeIndex ck ike).length = 48 := by
  have h : (hkdfT384 (hkdfExtractSHA384 ck ike) anonOriginIdInfo 1).length = 48 := by
    simp [hkdfT384, hmacSHA384_length]
  simp [computeIndex, hkdfExpandSHA384, List.range_succ, h]

theorem dropWhile_zeros_append (n : Nat) (l : List Nat) :
    (List.replicate n 0 ++ l).dropWhile (fun b => b == 0) =
      l.dropWhile (fun b => b == 0) := by
  induction n with
  | zero => simp
  | succ m ih => simp [List.replicate_succ, List.dropWhile_cons, ih]

theorem unpad_append_zeros (s : List Nat) (n : Nat) (h : s.getLast? ≠ some 0) :
    unpadOriginName (s ++ List.replicate n 0) = s := by
  unfold unpadOriginName
  rw [List.reverse_append, List.reverse_replicate, dropWhile_zeros_append]
  cases hs : s.reverse with
  | nil =>
    have : s = [] := by simpa using congrArg List.reverse hs
    simp [this]
  | cons a t =>
    have ha : s.getLast? = some a := by rw [← List.head?_reverse, hs]; rfl
    have hne : a ≠ 0 := fun hc => h (by rw [ha, hc])
    rw [List.dropWhile_cons]
    have hbeq : (a == 0) = false := by simpa using hne
    rw [hbeq]
    simp only [Bool.false_eq_true, if_false]
    rw [← hs, List.reverse_reverse]

theorem padOriginName_eq_ite (s : List Nat) :
    padOriginName s =
      s ++ List.replicate (if s.length = 0 then 32 else 31 - (s.length - 1) % 32) 0 := by
  have key : ∀ n : Nat, (31 - (((n : Int) - 1).tmod 32)).toNat =
      if n = 0 then 32 else 31 - (n - 1) % 32 := by
    intro n
    cases n with
    | zero => decide
    | succ m =>
      have h1 : ((m + 1 : Nat) : Int) - 1 = (m : Int) := by push_cast; ring
      rw [h1]
      have h2 : (m : Int).tmod 32 = ((m % 32 : Nat) : Int) := rfl
      rw [h2]
      have h3 : m % 32 < 32 := Nat.mod_lt _ (by decide)
      simp only [Nat.succ_ne_zero, if_false]
      omega
  simp only [padOriginName, key]

theorem padOriginName_length (s : List Nat) :
    (padOriginName s).length =
      if s.length = 0 then 32 else s.length + (31 - (s.length - 1) % 32) := by
  rw [padOriginName_eq_ite]
  by_cases h : s.length = 0 <;> simp [h]

theorem padOriginName_length_mod (s : List Nat) : (padOriginName s).length % 32 = 0 := by
  rw [padOriginName_length]
  by_cases h : s.length = 0
  · simp [h]
  · rw [if_neg h]
    omega

theorem getD_drop (l : List Nat) (m n : Nat) : (l.drop m).getD n 0 = l.getD (m + n) 0 := by
  simp [List.getD_eq_getElem?_getD, List.getElem?_drop]

/-! ## Claim theorems -/

set_option maxRecDepth 1000000 in
/-- C2, counterexample: `computeIndex` (hence `FinalizeIndex`) does not
equal the claimed HKDF with `salt = indexKeyEnc` and `ikm = clientKey`;
Go's `hkdf.New(hash, secret, salt, info)` receives `indexKey` as the
secret (IKM) and `clientKey` as the salt, the opposite of the claim.
At `clientKey = [1]`, `indexKeyEnc = [2]` the two differ. -/
theorem computeIndex_ne_specClaim : computeIndex [1] [2] ≠ computeIndexSpecClaim [1] [2] := by
  decide

/-- C2 (amended): `computeIndex` is a single HKDF-SHA-384
extract-then-expand producing exactly 48 bytes with
`salt = clientKey`, `ikm = indexKeyEnc` and
`info = "anon_issuer_origin_id"` (the salt/ikm roles are swapped
relative to the claim). -/
theorem computeIndex_is_oneShot_swapped (clientKey indexKeyEnc : List Nat) :
    computeIndex clientKey indexKeyEnc =
      hkdfOneShotSHA384 clientKey indexKeyEnc anonOriginIdInfo 48 ∧
    (computeIndex clientKey indexKeyEnc).length = 48 :=
  ⟨rfl, computeIndex_length clientKey indexKeyEnc⟩

/-- C3, counterexample: for a 32-byte origin name (length a nonzero
multiple of 32) the padded length is 32, not `len + 32 = 64`. -/
theorem padOriginName_mult32_counterexample :
    (padOriginName (List.replicate 32 1)).length = 32 ∧
    (padOriginName (List.replicate 32 1)).length ≠ 32 + 32 := by
  decide

/-- C3 (amended): for an origin name whose byte length is a multiple of
32, the empty string pads to exactly 32 zero bytes (length 0 + 32), but
a name of nonzero length is returned unchanged — `N = 31 - ((len-1) %
32) = 0` — so its padded length is `len`, not `len + 32`. -/
theorem padOriginName_mult32 (s : List Nat) (h : s.length % 32 = 0) :
    (s = [] → padOriginName s = List.replicate 32 0) ∧
    (s ≠ [] → padOriginName s = s) := by
  constructor
  · intro hs
    subst hs
    decide
  · intro hs
    rw [padOriginName_eq_ite]
    have h0 : s.length ≠ 0 := by simpa using hs
    rw [if_neg h0]
    have hz : 31 - (s.length - 1) % 32 = 0 := by omega
    rw [hz]
    simp

/-- C3 witness: the amended statement evaluated at the empty name and
at a concrete 32-byte name. -/
theorem padOriginName_mult32_witness :
    padOriginName [] = List.replicate 32 0 ∧
    padOriginName (List.replicate 32 1) = List.replicate 32 1 :=
  ⟨(padOriginName_mult32 [] (by decide)).1 rfl,
   (padOriginName_mult32 (List.replicate 32 1) (by decide)).2 (by decide)⟩

/-- C4: for every byte string whose last byte is nonzero,
`unpadOriginName ∘ padOriginName` is the identity, the padded length is
a multiple of 32, and `unpadOriginName` of an all-zero input is the
empty name. -/
theorem unpad_pad_roundtrip (s : List Nat) (n : Nat) (h : s.getLast? ≠ some 0) :
    unpadOriginName (padOriginName s) = s ∧
    (padOriginName s).length % 32 = 0 ∧
    unpadOriginName (List.replicate n 0) = [] := by
  refine ⟨?_, padOriginName_length_mod s, ?_⟩
  · rw [padOriginName_eq_ite]
    exact unpad_append_zeros s _ h
  · have h2 := dropWhile_zeros_append n ([] : List Nat)
    rw [List.append_nil] at h2
    unfold unpadOriginName
    rw [List.reverse_replicate, h2]
    simp

/-- C4 witness: the round trip evaluated at the two-byte name `"ex"`
and the all-zero property at five zero bytes. -/
theorem unpad_pad_roundtrip_witness :
    unpadOriginName (padOriginName [101, 120]) = [101, 120] ∧
    (padOriginName [101, 120]).length % 32 = 0 ∧
    unpadOriginName (List.replicate 5 0) = [] :=
  unpad_pad_roundtrip [101, 120] 5 (by decide)

set_option maxRecDepth 100000 in
/-- C6, counterexample: a 308-byte input whose length-prefixed field
holds 0 — so the exact encoding is 307 bytes and one trailing byte
remains — is accepted by `Unmarshal`, contradicting the claim that
trailing bytes are a decode failure. -/
theorem otrUnmarshal_trailing_counterexample :
    trailingExample.length = 308 ∧
    otrUnmarshal trailingExample = some ⟨List.replicate 256 0, List.replicate 49 0, []⟩ := by
  decide

/-- C6 (amended): `Unmarshal` fails exactly on a short read — it
succeeds if and only if the input holds the 256-byte, 49-byte and
2-byte fields plus the announced number of padded-origin bytes; bytes
trailing the length-prefixed field are ignored, not rejected. -/
theorem otrUnmarshal_isSome_iff (data : List Nat) :
    (otrUnmarshal data).isSome = true ↔
      307 + (256 * data.getD 305 0 + data.getD 306 0) ≤ data.length := by
  simp only [otrUnmarshal]
  by_cases h1 : data.length < 256
  · simp only [if_pos h1, Option.isSome_none, Bool.false_eq_true, false_iff, not_le]
    omega
  · simp only [if_neg h1]
    by_cases h2 : (data.drop 256).length < 49
    · simp only [if_pos h2, Option.isSome_none, Bool.false_eq_true, false_iff, not_le]
      simp only [List.length_drop] at h2
      omega
    · simp only [if_neg h2]
      by_cases h3 : ((data.drop 256).drop 49).length < 2
      · simp only [if_pos h3, Option.isSome_none, Bool.false_eq_true, false_iff, not_le]
        simp only [List.length_drop, List.drop_drop] at h3
        omega
      · simp only [if_neg h3]
        have e0 : ((data.drop 256).drop 49).getD 0 0 = data.getD 305 0 := by
          rw [List.drop_drop]
          norm_num [getD_drop]
        have e1 : ((data.drop 256).drop 49).getD 1 0 = data.getD 306 0 := by
          rw [List.drop_drop]
          norm_num [getD_drop]
        rw [e0, e1]
        simp only [List.length_drop] at h2 h3
        by_cases h4 : (((data.drop 256).drop 49).drop 2).length <
            256 * data.getD 305 0 + data.getD 306 0
        · simp only [if_pos h4, Option.isSome_none, Bool.false_eq_true, false_iff, not_le]
          simp only [List.length_drop] at h4
          omega
        · simp only [if_neg h4, Option.isSome_some]
          simp only [List.length_drop] at h4
          constructor
          · intro _
            omega
          · intro _
            trivial

/-- C7: the HPKE AAD rebuilt by the issuer equals the AAD built by the
client for the matching public name key, and both equal
`u8(id) ‖ u16(kem) ‖ u16(kdf) ‖ u16(aead) ‖ u16(tokenType) ‖
u8(tokenKeyID) ‖ SHA-256(serialized name key)`. -/
theorem aad_client_issuer_agree (nameKey : PrivateNameKey) (tokenKeyID : Nat) :
    issuerAad nameKey tokenKeyID = clientAad nameKey.pub tokenKeyID ∧
    clientAad nameKey.pub tokenKeyID =
      [nameKey.pub.id % 256] ++ u16be nameKey.pub.kemId ++ u16be nameKey.pub.kdfId ++
        u16be nameKey.pub.aeadId ++ u16be RateLimitedTokenType ++ [tokenKeyID % 256] ++
        sha256 (marshalPublicNameKey nameKey.pub) :=
  ⟨rfl, rfl⟩

/-! ## Evaluation-path lemmas -/

theorem evaluate_unknown_of_lookup_none
    (P : IssuerPrims) (iss : RateLimitedIssuer) (req : RateLimitedTokenRequest)
    (nonce : List Nat) (otr : OriginTokenRequest) (secret : List Nat)
    (hd : decryptOriginTokenRequest P iss.nameKey req.tokenKeyID req.encryptedTokenRequest =
      ⟨otr, secret, none⟩)
    (hk : iss.originIndexKeys.lookup (unpadOriginName otr.paddedOrigin) = none) :
    evaluate P iss req nonce = .error (.unknownOrigin (unpadOriginName otr.paddedOrigin)) := by
  simp only [evaluate, hd, hk]

theorem evaluateWC_unknown_of_lookup_none
    (P : IssuerPrims) (iss : RateLimitedIssuer) (req : RateLimitedTokenRequest)
    (nonce : List Nat) (otr : OriginTokenRequest) (secret : List Nat)
    (hd : decryptOriginTokenRequest P iss.nameKey req.tokenKeyID req.encryptedTokenRequest =
      ⟨otr, secret, none⟩)
    (hk : iss.originIndexKeys.lookup (unpadOriginName otr.paddedOrigin) = none) :
    evaluateWithoutCheck P iss req nonce =
      .error (.unknownOrigin (unpadOriginName otr.paddedOrigin)) := by
  simp only [evaluateWithoutCheck, hd, hk]

theorem evaluate_ne_unknown_of_lookup_some
    (P : IssuerPrims) (iss : RateLimitedIssuer) (req : RateLimitedTokenRequest)
    (nonce : List Nat) (otr : OriginTokenRequest) (secret : List Nat)
    (hd : decryptOriginTokenRequest P iss.nameKey req.tokenKeyID req.encryptedTokenRequest =
      ⟨otr, secret, none⟩)
    (k : Nat)
    (hk : iss.originIndexKeys.lookup (unpadOriginName otr.paddedOrigin) = some k)
    (nm : List Nat) :
    evaluate P iss req nonce ≠ .error (.unknownOrigin nm) := by
  intro h
  simp only [evaluate, hd, hk] at h
  split at h
  · split at h
    · simp at h
    · split at h
      · simp at h
      · simp at h
  · simp at h

theorem evaluateWC_ne_unknown_of_lookup_some
    (P : IssuerPrims) (iss : RateLimitedIssuer) (req : RateLimitedTokenRequest)
    (nonce : List Nat) (otr : OriginTokenRequest) (secret : List Nat)
    (hd : decryptOriginTokenRequest P iss.nameKey req.tokenKeyID req.encryptedTokenRequest =
      ⟨otr, secret, none⟩)
    (k : Nat)
    (hk : iss.originIndexKeys.lookup (unpadOriginName otr.paddedOrigin) = some k)
    (nm : List Nat) :
    evaluateWithoutCheck P iss req nonce ≠ .error (.unknownOrigin nm) := by
  intro h
  simp only [evaluateWithoutCheck, hd, hk] at h
  split at h
  · simp at h
  · split at h
    · simp at h
    · simp at h

/-- C1: whenever `Evaluate` accepts a request — returning
`(responseNonce ‖ ct, blindedRequestKeyEnc)` — `EvaluateWithoutCheck`
accepts it too and returns the same `blindedRequestKeyEnc`, but its
encrypted token response is the bare AEAD ciphertext: exactly
`Evaluate`'s response with the leading `responseNonce` stripped, so it
is not of the form the claim (and `FinalizeToken`) requires. -/
theorem evaluateWithoutCheck_drops_nonce
    (P : IssuerPrims) (iss : RateLimitedIssuer) (req : RateLimitedTokenRequest)
    (responseNonce resp blindedKeyEnc : List Nat)
    (h : evaluate P iss req responseNonce = .ok (resp, blindedKeyEnc)) :
    evaluateWithoutCheck P iss req responseNonce =
      .ok (resp.drop responseNonce.length, blindedKeyEnc) ∧
    resp = responseNonce ++ resp.drop responseNonce.length := by
  unfold evaluate at h
  split at h
  · simp at h
  · rename_i otr secret heq
    split at h
    · simp at h
    · rename_i k hk
      split at h
      · split at h
        · simp at h
        · rename_i bp hb
          split at h
          · simp at h
          · rename_i bs hs
            simp only [Except.ok.injEq, Prod.mk.injEq] at h
            obtain ⟨hresp, hbk⟩ := h
            constructor
            · simp only [evaluateWithoutCheck, heq, hk, hb, hs]
              rw [← hbk, ← hresp, List.drop_left]
            · rw [← hresp, List.drop_left]
      · simp at h

set_option maxRecDepth 400000 in
/-- C1 witness: a concrete request accepted by `evaluate`; the checked
variant returns `responseNonce ‖ [9, 9]` while the unchecked variant
returns only `[9, 9]`, with equal `blindedRequestKeyEnc = [6, 2]`. -/
theorem evaluateWithoutCheck_drops_nonce_witness :
    evaluate primsOk issuerExample reqExample nonceExample =
      .ok (nonceExample ++ [9, 9], [6, 2]) ∧
    evaluateWithoutCheck primsOk issuerExample reqExample nonceExample =
      .ok ([9, 9], [6, 2]) := by
  have h : evaluate primsOk issuerExample reqExample nonceExample =
      .ok (nonceExample ++ [9, 9], [6, 2]) := by rfl
  have h2 := (evaluateWithoutCheck_drops_nonce primsOk issuerExample reqExample nonceExample
    (nonceExample ++ [9, 9]) [6, 2] h).1
  refine ⟨h, h2.trans ?_⟩
  rw [List.drop_left]

/-- C5: when the HPKE open succeeds but the plaintext fails to decode
as an `OriginTokenRequest`, `decryptOriginTokenRequest` returns a nil
error (the `err` variable still holds the nil from the successful
`context.Open`), and `Evaluate` therefore continues with the zero-value
request — reporting `UnknownOrigin` for the empty origin name rather
than any decode error. -/
theorem decrypt_unmarshal_failure_nil_error
    (P : IssuerPrims) (nameKey : PrivateNameKey) (tokenKeyID : Nat) (etr pt : List Nat)
    (hOpen : P.hpkeOpen (etr.take nameKey.pub.kemPublicKeySize) (issuerAad nameKey tokenKeyID)
      (etr.drop nameKey.pub.kemPublicKeySize) = some pt)
    (hUn : otrUnmarshal pt = none) :
    decryptOriginTokenRequest P nameKey tokenKeyID etr = ⟨emptyOriginTokenRequest, [], none⟩ ∧
    ∀ (keys : List (List Nat × Nat)) (req : RateLimitedTokenRequest) (nonce : List Nat),
      req.tokenKeyID = tokenKeyID → req.encryptedTokenRequest = etr → keys.lookup [] = none →
      evaluate P ⟨nameKey, keys⟩ req nonce = .error (.unknownOrigin []) := by
  have hd : decryptOriginTokenRequest P nameKey tokenKeyID etr =
      ⟨emptyOriginTokenRequest, [], none⟩ := by
    simp only [decryptOriginTokenRequest, hOpen, hUn]
  refine ⟨hd, fun keys req nonce h1 h2 hkeys => ?_⟩
  subst h1
  subst h2
  simp only [evaluate, hd, emptyOriginTokenRequest,
    show unpadOriginName ([] : List Nat) = [] from rfl, hkeys]

/-- C5 witness: concrete primitives whose HPKE open yields the 3-byte
plaintext `[1, 2, 3]`; decryption reports no error and `Evaluate`
returns `UnknownOrigin` for the empty name. -/
theorem decrypt_unmarshal_failure_nil_error_witness :
    decryptOriginTokenRequest primsBadPlain nameKeyExample 1 (List.replicate 64 3) =
      ⟨emptyOriginTokenRequest, [], none⟩ ∧
    evaluate primsBadPlain issuerNoOrigins reqExample nonceExample =
      .error (.unknownOrigin []) := by
  have h := decrypt_unmarshal_failure_nil_error primsBadPlain nameKeyExample 1
    (List.replicate 64 3) [1, 2, 3] rfl rfl
  exact ⟨h.1, h.2 [] reqExample nonceExample rfl rfl rfl⟩

/-- C8: for a request whose payload decrypts and decodes successfully,
each evaluation variant reports `UnknownOrigin` (carrying the unpadded
origin name, with no response outputs) precisely when the unpadded
origin name has no entry in the issuer's `originIndexKeys` mapping; the
evaluation functions take the mapping purely and return only the
response pair, so the mapping is not modified. -/
theorem unknownOrigin_iff_lookup_fails
    (P : IssuerPrims) (iss : RateLimitedIssuer) (req : RateLimitedTokenRequest)
    (nonce pt : List Nat) (otr : OriginTokenRequest)
    (hOpen : P.hpkeOpen (req.encryptedTokenRequest.take iss.nameKey.pub.kemPublicKeySize)
      (issuerAad iss.nameKey req.tokenKeyID)
      (req.encryptedTokenRequest.drop iss.nameKey.pub.kemPublicKeySize) = some pt)
    (hUn : otrUnmarshal pt = some otr) :
    (evaluate P iss req nonce = .error (.unknownOrigin (unpadOriginName otr.paddedOrigin)) ↔
      iss.originIndexKeys.lookup (unpadOriginName otr.paddedOrigin) = none) ∧
    (evaluateWithoutCheck P iss req nonce =
        .error (.unknownOrigin (unpadOriginName otr.paddedOrigin)) ↔
      iss.originIndexKeys.lookup (unpadOriginName otr.paddedOrigin) = none) := by
  have hd : decryptOriginTokenRequest P iss.nameKey req.tokenKeyID req.encryptedTokenRequest =
      ⟨otr, P.hpkeExport (req.encryptedTokenRequest.take iss.nameKey.pub.kemPublicKeySize),
       none⟩ := by
    simp only [decryptOriginTokenRequest, hOpen, hUn]
  constructor
  · constructor
    · intro h
      cases hk : iss.originIndexKeys.lookup (unpadOriginName otr.paddedOrigin) with
      | none => rfl
      | some k =>
        exact absurd h (evaluate_ne_unknown_of_lookup_some P iss req nonce otr _ hd k hk _)
    · intro hk
      exact evaluate_unknown_of_lookup_none P iss req nonce otr _ hd hk
  · constructor
    · intro h
      cases hk : iss.originIndexKeys.lookup (unpadOriginName otr.paddedOrigin) with
      | none => rfl
      | some k =>
        exact absurd h (evaluateWC_ne_unknown_of_lookup_some P iss req nonce otr _ hd k hk _)
    · intro hk
      exact evaluateWC_unknown_of_lookup_none P iss req nonce otr _ hd hk

set_option maxRecDepth 400000 in
/-- C8 witness: with no origins registered, both variants report
`UnknownOrigin` for the decoded (empty) origin name. -/
theorem unknownOrigin_iff_lookup_fails_witness :
    evaluate primsOk issuerNoOrigins reqExample nonceExample =
      .error (.unknownOrigin (unpadOriginName otrExample.paddedOrigin)) ∧
    evaluateWithoutCheck primsOk issuerNoOrigins reqExample nonceExample =
      .error (.unknownOrigin (unpadOriginName otrExample.paddedOrigin)) := by
  have h := unknownOrigin_iff_lookup_fails primsOk issuerNoOrigins reqExample nonceExample
    otrPlainExample otrExample rfl (by decide)
  exact ⟨h.1.mpr rfl, h.2.mpr rfl⟩

/-- C9: when the decrypted `requestKey` is not a valid compressed P-384
point (`UnmarshalCompressed` decodes to nothing — off-curve, malformed
or the point at infinity), `Evaluate` returns an error: either
`UnknownOrigin` before reaching the key, or `InvalidSignature` since
verification against an invalid key fails; it never reaches blind
signing or response sealing. -/
theorem evaluate_rejects_invalid_point
    (P : IssuerPrims) (iss : RateLimitedIssuer) (req : RateLimitedTokenRequest)
    (nonce pt : List Nat) (otr : OriginTokenRequest)
    (hOpen : P.hpkeOpen (req.encryptedTokenRequest.take iss.nameKey.pub.kemPublicKeySize)
      (issuerAad iss.nameKey req.tokenKeyID)
      (req.encryptedTokenRequest.drop iss.nameKey.pub.kemPublicKeySize) = some pt)
    (hUn : otrUnmarshal pt = some otr)
    (hKey : P.unmarshalCompressed otr.requestKey = none) :
    ∃ e, evaluate P iss req nonce = .error e := by
  have hd : decryptOriginTokenRequest P iss.nameKey req.tokenKeyID req.encryptedTokenRequest =
      ⟨otr, P.hpkeExport (req.encryptedTokenRequest.take iss.nameKey.pub.kemPublicKeySize),
       none⟩ := by
    simp only [decryptOriginTokenRequest, hOpen, hUn]
  cases hk : iss.originIndexKeys.lookup (unpadOriginName otr.paddedOrigin) with
  | none => exact ⟨_, evaluate_unknown_of_lookup_none P iss req nonce otr _ hd hk⟩
  | some k =>
    refine ⟨.invalidSignature, ?_⟩
    simp only [evaluate, hd, hk, hKey]
    rfl

set_option maxRecDepth 400000 in
/-- C9 witness: primitives whose point decoding always fails; the
concrete request is rejected with an error. -/
theorem evaluate_rejects_invalid_point_witness :
    ∃ e, evaluate primsBadPoint issuerExample reqExample nonceExample = .error e :=
  evaluate_rejects_invalid_point primsBadPoint issuerExample reqExample nonceExample
    otrPlainExample otrExample rfl (by decide) rfl

/-- C10: `FinalizeToken` is total exactly on responses of length at
least `max(aeadKeySize, aeadNonceSize)` — under that precondition the
two slice accesses are in bounds and the function returns either a
token or an error — while any shorter response makes the slicing panic
(modelled as `none`); for the fixed AES-128-GCM suite the threshold is
`max 16 12 = 16`. -/
theorem finalizeToken_totality
    (P : ClientPrims) (st : RequestStateModel) (resp : List Nat) :
    (max st.aeadKeySize st.aeadNonceSize ≤ resp.length →
      ∃ r, finalizeToken P st resp = some r) ∧
    (resp.length < max st.aeadKeySize st.aeadNonceSize → finalizeToken P st resp = none) ∧
    (st.aeadKeySize = 16 → st.aeadNonceSize = 12 →
      max st.aeadKeySize st.aeadNonceSize = 16) := by
  refine ⟨fun h => ?_, fun h => ?_, fun h1 h2 => by rw [h1, h2]; decide⟩
  · simp only [finalizeToken]
    rw [if_neg (Nat.not_lt.mpr h)]
    split
    · exact ⟨_, rfl⟩
    · split
      · exact ⟨_, rfl⟩
      · split
        · exact ⟨_, rfl⟩
        · split
          · exact ⟨_, rfl⟩
          · exact ⟨_, rfl⟩
  · simp only [finalizeToken]
    rw [if_pos h]

/-- C10 witness: with the fixed AES-128-GCM sizes, a 16-byte response
finalizes to a result and a 15-byte response panics. -/
theorem finalizeToken_totality_witness :
    (∃ r, finalizeToken clientPrimsExample stateExample (List.replicate 16 0) = some r) ∧
    finalizeToken clientPrimsExample stateExample (List.replicate 15 0) = none :=
  ⟨(finalizeToken_totality clientPrimsExample stateExample (List.replicate 16 0)).1 (by decide),
   (finalizeToken_totality clientPrimsExample stateExample (List.replicate 15 0)).2.1 (by decide)⟩
